import Mathlib

/-!
Verification of the bcdl download orchestrator.

This file gives a shallow embedding, faithful to the Go sources, of:
  * `internal/filetype.go` — the `FileType` string type and its constants;
  * `internal/history.go`  — `md5Download` (MD5 over title ++ filetype bytes,
    returned as the raw 16 digest bytes), the `History` store
    (`containsDownload`, `addItem`, `writeOut`, `readHistory`);
  * `internal/download.go` — the job/retry state machine (`timedOut`,
    `failed`, `succeeded`, `worker`, `processJob`), the worker pool, and the
    pagination loop of `Download`.

Go byte strings are modelled as `List Nat` (each element < 256); durations
are `Nat` nanoseconds; the nondeterministic interleaving of the three workers
is modelled by a single FIFO queue (channel order), which is faithful for the
counting and per-job properties proved below.
-/

namespace Bcdl

/-- Go `time.Minute` in nanoseconds (`time.Duration` is an int64 nanosecond
count). -/
def minute : Nat := 60000000000

/-! ## filetype.go -/

/-- Go: `type FileType string`. -/
abbrev FileType := String

def MP3_VO : FileType := "mp3-v0"
def MP3_320 : FileType := "mp3-320"
def FLAC : FileType := "flac"
def AAC_HI : FileType := "aac-hi"
def VORBIS : FileType := "vorbis"
def ALAC : FileType := "alac"
def WAV : FileType := "wave"
def AIFF_LOSSLESS : FileType := "aiff-lossless"

def AllFileTypes : List FileType :=
  [MP3_320, MP3_VO, FLAC, AAC_HI, VORBIS, ALAC, WAV, AIFF_LOSSLESS]

/-! ## MD5 (crypto/md5 as used by history.go)

Standard MD5 over byte lists, all arithmetic in `Nat` reduced mod `2^32`.
-/

/-- UTF-8 encoding of one character (Go strings are UTF-8 byte strings). -/
def utf8Bytes (c : Char) : List Nat :=
  let n := c.toNat
  if n < 0x80 then [n]
  else if n < 0x800 then
    [0xC0 ||| (n >>> 6), 0x80 ||| (n &&& 0x3F)]
  else if n < 0x10000 then
    [0xE0 ||| (n >>> 12), 0x80 ||| ((n >>> 6) &&& 0x3F), 0x80 ||| (n &&& 0x3F)]
  else
    [0xF0 ||| (n >>> 18), 0x80 ||| ((n >>> 12) &&& 0x3F),
     0x80 ||| ((n >>> 6) &&& 0x3F), 0x80 ||| (n &&& 0x3F)]

/-- The bytes of a Go string (UTF-8). -/
def strBytes (s : String) : List Nat :=
  (s.data.map utf8Bytes).flatten

/-- MD5 per-round constants `K[i] = floor(abs(sin(i+1)) * 2^32)`. -/
def md5K : List Nat :=
  [0xd76aa478, 0xe8c7b756, 0x242070db, 0xc1bdceee, 0xf57c0faf, 0x4787c62a, 0xa8304613, 0xfd469501,
   0x698098d8, 0x8b44f7af, 0xffff5bb1, 0x895cd7be, 0x6b901122, 0xfd987193, 0xa679438e, 0x49b40821,
   0xf61e2562, 0xc040b340, 0x265e5a51, 0xe9b6c7aa, 0xd62f105d, 0x02441453, 0xd8a1e681, 0xe7d3fbc8,
   0x21e1cde6, 0xc33707d6, 0xf4d50d87, 0x455a14ed, 0xa9e3e905, 0xfcefa3f8, 0x676f02d9, 0x8d2a4c8a,
   0xfffa3942, 0x8771f681, 0x6d9d6122, 0xfde5380c, 0xa4beea44, 0x4bdecfa9, 0xf6bb4b60, 0xbebfbc70,
   0x289b7ec6, 0xeaa127fa, 0xd4ef3085, 0x04881d05, 0xd9d4d039, 0xe6db99e5, 0x1fa27cf8, 0xc4ac5665,
   0xf4292244, 0x432aff97, 0xab9423a7, 0xfc93a039, 0x655b59c3, 0x8f0ccc92, 0xffeff47d, 0x85845dd1,
   0x6fa87e4f, 0xfe2ce6e0, 0xa3014314, 0x4e0811a1, 0xf7537e82, 0xbd3af235, 0x2ad7d2bb, 0xeb86d391]

/-- MD5 per-round left-rotation amounts. -/
def md5S : List Nat :=
  [7, 12, 17, 22, 7, 12, 17, 22, 7, 12, 17, 22, 7, 12, 17, 22,
   5, 9, 14, 20, 5, 9, 14, 20, 5, 9, 14, 20, 5, 9, 14, 20,
   4, 11, 16, 23, 4, 11, 16, 23, 4, 11, 16, 23, 4, 11, 16, 23,
   6, 10, 15, 21, 6, 10, 15, 21, 6, 10, 15, 21, 6, 10, 15, 21]

/-- 32-bit left rotation on a `Nat` below `2^32`. -/
def rotl32 (x s : Nat) : Nat :=
  ((x <<< s) % 2 ^ 32) ||| (x >>> (32 - s))

/-- Little-endian 4-byte encoding of a 32-bit word. -/
def le4 (n : Nat) : List Nat :=
  [n % 256, (n >>> 8) % 256, (n >>> 16) % 256, (n >>> 24) % 256]

/-- Little-endian 8-byte encoding of the 64-bit bit length. -/
def le8 (n : Nat) : List Nat :=
  (List.range 8).map fun i => (n >>> (8 * i)) % 256

/-- Decode a 64-byte block as 16 little-endian 32-bit words. -/
def toWordsLE (block : List Nat) : List Nat :=
  (List.range 16).map fun i =>
    block.getD (4 * i) 0 + (block.getD (4 * i + 1) 0 <<< 8) +
      (block.getD (4 * i + 2) 0 <<< 16) + (block.getD (4 * i + 3) 0 <<< 24)

/-- One MD5 compression round on state `(a, b, c, d)` with message words `m`. -/
def md5Step (m : List Nat) (st : Nat × Nat × Nat × Nat) (i : Nat) :
    Nat × Nat × Nat × Nat :=
  let (a, b, c, d) := st
  let fg : Nat × Nat :=
    if i < 16 then ((b &&& c) ||| ((b ^^^ 0xffffffff) &&& d), i)
    else if i < 32 then ((d &&& b) ||| ((d ^^^ 0xffffffff) &&& c), (5 * i + 1) % 16)
    else if i < 48 then (b ^^^ c ^^^ d, (3 * i + 5) % 16)
    else (c ^^^ (b ||| (d ^^^ 0xffffffff)), (7 * i) % 16)
  let f := (fg.1 + a + md5K.getD i 0 + m.getD fg.2 0) % 2 ^ 32
  (d, (b + rotl32 f (md5S.getD i 0)) % 2 ^ 32, b, c)

/-- MD5 compression of one 64-byte block into the running state. -/
def md5Block (st : Nat × Nat × Nat × Nat) (block : List Nat) :
    Nat × Nat × Nat × Nat :=
  let m := toWordsLE block
  let (a, b, c, d) := (List.range 64).foldl (md5Step m) st
  ((st.1 + a) % 2 ^ 32, (st.2.1 + b) % 2 ^ 32, (st.2.2.1 + c) % 2 ^ 32,
    (st.2.2.2 + d) % 2 ^ 32)

/-- MD5 padding: `0x80`, zeros to 56 mod 64, then the bit length (LE, 64-bit). -/
def md5Pad (msg : List Nat) : List Nat :=
  msg ++ [0x80] ++ List.replicate ((56 + 64 - (msg.length + 1) % 64) % 64) 0 ++
    le8 ((8 * msg.length) % 2 ^ 64)

/-- Split a byte list into 64-byte chunks (structural recursion on a fuel
bound so the definition unfolds by computation). -/
def chunks64Aux : Nat → List Nat → List (List Nat)
  | 0, _ => []
  | _, [] => []
  | fuel + 1, l => l.take 64 :: chunks64Aux fuel (l.drop 64)

/-- Split a byte list into 64-byte chunks. -/
def chunks64 (l : List Nat) : List (List Nat) :=
  chunks64Aux l.length l

/-- MD5 digest (16 bytes) of a byte list. -/
def md5Bytes (msg : List Nat) : List Nat :=
  let st := (chunks64 (md5Pad msg)).foldl md5Block
    (0x67452301, 0xefcdab89, 0x98badcfe, 0x10325476)
  le4 st.1 ++ le4 st.2.1 ++ le4 st.2.2.1 ++ le4 st.2.2.2

/-- The byte string hashed by `md5Download`: the title's bytes followed by the
filetype's bytes (history.go writes `title` then `string(ft)` to the hash). -/
def md5Input (title : String) (ft : FileType) : List Nat :=
  strBytes title ++ strBytes ft

/-- history.go `md5Download`: the fingerprint is `string(h.Sum(nil))`, i.e. the
raw 16 digest bytes used directly as a Go (byte) string. -/
def md5Download (title : String) (ft : FileType) : List Nat :=
  md5Bytes (md5Input title ft)

/-! ## history.go -/

/-- The History store: the backing file's bytes (the `historyFile`, opened with
`O_APPEND`, so every write appends) and the in-memory set of fingerprints
(Go `map[string]bool`), modelled as a duplicate-free list of byte strings. -/
structure History where
  file : List Nat
  items : List (List Nat)
deriving Repr, DecidableEq

/-- A `History` over an empty (or freshly created) backing file. -/
def emptyHistory : History := { file := [], items := [] }

/-- history.go `containsDownload`: membership of the fingerprint in the
in-memory set. -/
def containsDownload (h : History) (title : String) (ft : FileType) : Bool :=
  h.items.contains (md5Download title ft)

/-- history.go `addItem`: insert the fingerprint into the in-memory set
(`h.items[hash] = true`; idempotent). -/
def addItem (h : History) (title : String) (ft : FileType) : History :=
  let hash := md5Download title ft
  if h.items.contains hash then h else { h with items := h.items ++ [hash] }

/-- history.go `writeOut`: append every in-memory key, newline-terminated, to
the backing file (`fmt.Sprintf("%s\n", key)` on an `O_APPEND` file). -/
def writeOut (h : History) : History :=
  { h with file := h.file ++ (h.items.map (· ++ [10])).flatten }

/-- The dropCR helper of bufio.ScanLines: strip one trailing carriage-return byte. -/
def dropCR (l : List Nat) : List Nat :=
  if l.getLast? = some 13 then l.dropLast else l

/-- Go bufio.Scanner with the default `ScanLines` split: tokens are the
newline-separated lines (each with a trailing CR stripped); a trailing
newline produces no final empty token. `cur` is the partial line read so
far. -/
def scanLinesAux : List Nat → List Nat → List (List Nat)
  | [], cur => if cur = [] then [] else [dropCR cur]
  | b :: rest, cur =>
    if b = 10 then dropCR cur :: scanLinesAux rest []
    else scanLinesAux rest (cur ++ [b])

def scanLines (bytes : List Nat) : List (List Nat) :=
  scanLinesAux bytes []

/-- history.go `readHistory`: scan the file line by line and collect the lines
into the in-memory set (duplicates collapse). -/
def readHistory (bytes : List Nat) : History :=
  { file := bytes, items := (scanLines bytes).dedup }

/-! ## download.go — Downloader configuration -/

/-- download.go `Downloader` (the `context.Context` field is not modelled; no
claim concerns it). -/
structure Downloader where
  username : String
  identity : String
  dirPath : String
  timeout : Nat
  headless : Bool
  filetype : FileType
deriving Repr, DecidableEq

/-- download.go `NewDownloader`: rejects an empty directory path, then applies
the option functions to the zero-valued `Downloader`. -/
def NewDownloader (username identity dirPath : String)
    (options : List (Downloader → Downloader)) : Except String Downloader :=
  if dirPath = "" then .error "Directory path cannot be empty"
  else .ok (options.foldl (fun d f => f d)
    { username := username, identity := identity, dirPath := dirPath,
      timeout := 0, headless := false, filetype := "" })

/-- download.go `WithTimeout`: sets the `timeout` field of the configuration
(and nothing else). -/
def WithTimeout (t : Nat) (d : Downloader) : Downloader := { d with timeout := t }

/-- download.go `WithHeadless`. -/
def WithHeadless (d : Downloader) : Downloader := { d with headless := true }

/-- download.go `WithFiletype`. -/
def WithFiletype (ft : FileType) (d : Downloader) : Downloader :=
  { d with filetype := ft }

/-- download.go `DefaultDownloader`: `NewDownloader` with a 3-minute timeout
and MP3_320. -/
def DefaultDownloader (username identity dirPath : String) : Except String Downloader :=
  NewDownloader username identity dirPath [WithTimeout (3 * minute), WithFiletype MP3_320]

/-! ## download.go — jobs and the retry state machine -/

/-- bandcamp.go `CollectionEntry`. -/
structure CollectionEntry where
  url : String
  title : String
deriving Repr, DecidableEq

/-- download.go `downloadJob`. `err` is the error message (Go `error`),
`timeout` the per-attempt timeout in nanoseconds, `retries` the retry
counter. -/
structure downloadJob where
  Entry : CollectionEntry
  err : Option String
  Success : Bool
  DownloadDir : String
  filetype : FileType
  timeout : Nat
  retries : Nat
deriving Repr, DecidableEq

/-- download.go `(*downloadJob).failed`. -/
def failed (j : downloadJob) (e : String) : downloadJob :=
  { j with Success := false, err := some e }

/-- download.go `(*downloadJob).succeeded`. -/
def succeeded (j : downloadJob) : downloadJob :=
  { j with Success := true, err := none }

/-- download.go `const MAX_RETRIES = 5`. -/
def MAX_RETRIES : Nat := 5

/-- The message of the per-attempt timeout error (the source formats the
minutes with `%f`; the exact float rendering is immaterial to every claim). -/
def timedOutMsg (timeout : Nat) : String :=
  "Timed out after " ++ toString (timeout / minute) ++ " minutes"

/-- download.go `(*downloadJob).timedOut`: at `MAX_RETRIES` retries report the
maximum-retries error and leave the job unchanged; otherwise record the
timeout error, bump `retries`, and add two minutes to the per-attempt
timeout. Returns (returned error, updated job). -/
def timedOut (j : downloadJob) : Option String × downloadJob :=
  if j.retries = MAX_RETRIES then (some "Reached maximum allowed retries", j)
  else (none,
    { j with Success := false, err := some (timedOutMsg j.timeout),
             retries := j.retries + 1, timeout := j.timeout + 2 * minute })

/-! ## download.go — processJob and the worker

`processJob` delegates one attempt to the page driver. The driver's behaviour
for one attempt is a record of the four fallible driver calls it makes
(`NewCollectionEntryPage`, `Goto`, `SelectFileType`, `DownloadFile`): `none`
means the call succeeded, `some e` that it returned error `e`. -/

structure EntryPageAttempt where
  newPageErr : Option String
  gotoErr : Option String
  selectErr : Option String
  downloadErr : Option String
deriving Repr, DecidableEq

/-- The attempt in which every driver call succeeds. -/
def okAttempt : EntryPageAttempt :=
  { newPageErr := none, gotoErr := none, selectErr := none, downloadErr := none }

/-- download.go `processJob`: open the entry page, navigate, select the
format, download; each error is wrapped and returned immediately (no retry
here). Returns `none` on success. -/
def processJob (job : downloadJob) (page : EntryPageAttempt) : Option String :=
  match page.newPageErr with
  | some e => some ("Could not create page: " ++ e)
  | none =>
    match page.gotoErr with
    | some e => some ("Could not goto " ++ job.Entry.url ++ ": " ++ e)
    | none =>
      match page.selectErr with
      | some e => some ("Could not select file type " ++ job.filetype ++ ": " ++ e)
      | none =>
        match page.downloadErr with
        | some e => some ("Could not download file: " ++ e)
        | none => none

/-- What one attempt of a job observes: either its per-attempt timer fires
first (`timeout`), or the delegated `processJob` call completes first with
the given driver behaviour. -/
inductive AttemptOutcome
  | timeout
  | completes (page : EntryPageAttempt)
deriving Repr, DecidableEq

/-- One iteration of download.go's `worker` select on one pulled job:
 * timer fired: apply `timedOut`; if it reports the maximum-retries error the
   job is failed and emitted (`Sum.inr`), otherwise the updated job is pushed
   back into the job queue (`Sum.inl`);
 * `processJob` completed: emit the job failed with its error, or succeeded.
`Sum.inr` is a value sent on the results channel, `Sum.inl` a re-enqueue. -/
def workerStep (j : downloadJob) : AttemptOutcome → downloadJob ⊕ downloadJob
  | .timeout =>
    match timedOut j with
    | (some e, j2) => .inr (failed j2 e)
    | (none, j2) => .inl j2
  | .completes page =>
    match processJob j page with
    | some e => .inr (failed j e)
    | none => .inr (succeeded j)

/-- Run one job to its emitted result. `env k` is the outcome of the job's
`k`-th attempt, `k` the index of the next attempt, `fuel` a recursion bound
(the source loops until the job is emitted). Returns the emitted job and the
attempt index after emission, i.e. the total number of attempts made. -/
def runJob (env : Nat → AttemptOutcome) : Nat → Nat → downloadJob →
    Option (downloadJob × Nat)
  | 0, _, _ => none
  | fuel + 1, k, j =>
    match workerStep j (env k) with
    | .inr out => some (out, k + 1)
    | .inl j2 => runJob env fuel (k + 1) j2

/-- The worker pool on the shared FIFO job queue (the Go channel): entries are
`(id, k, job)` with `id` the identity of the originally enqueued job and `k`
its next attempt index. A timed-out job with retries remaining is re-enqueued
at the back of the queue and emits nothing; an emitted job is appended to the
results. `env id k` is the outcome of job `id`'s `k`-th attempt. -/
def runPool (env : Nat → Nat → AttemptOutcome) :
    Nat → List (Nat × Nat × downloadJob) → Option (List (Nat × downloadJob))
  | _, [] => some []
  | 0, _ :: _ => none
  | fuel + 1, (id, k, j) :: rest =>
    match workerStep j (env id k) with
    | .inr out => (runPool env fuel rest).map (fun r => (id, out) :: r)
    | .inl j2 => runPool env fuel (rest ++ [(id, k + 1, j2)])

/-- Fuel sufficient for `runPool`: each queue entry needs at most
`MAX_RETRIES + 1 - retries` attempts. -/
def poolFuel (q : List (Nat × Nat × downloadJob)) : Nat :=
  (q.map (fun e => MAX_RETRIES + 1 - e.2.2.retries)).sum

/-- The pool run with the fuel `Download` always suffices with (all enqueued jobs
start at `retries = 0`, so `6 * length` attempts are enough; proved below). -/
def runPoolD (env : Nat → Nat → AttemptOutcome)
    (q : List (Nat × Nat × downloadJob)) : List (Nat × downloadJob) :=
  (runPool env (6 * q.length) q).getD []

/-! ## download.go — the Download orchestrator

The listing driver (`CollectionPage`): each fallible call is modelled as the
pair Go returns, value and optional error. The source of the methods
themselves is browser automation outside the core; `Download` only consumes
their results. -/

structure CollectionPageDriver where
  filterErr : Option String
  albumCount : Nat × Option String
  scrollTimes : Nat × Option String
  entries : Nat → List CollectionEntry × Option String

/-- The observable callback/driver events of a run: `onStart`, `onSuccess`,
`onFailure` are the `DownloadOpts` callbacks, `flushEv` is
`history.writeOut()` at the end of a step, `advance` is `page.ScrollPage()`.
Each carries the pagination step that produced it. -/
inductive Event
  | onStart (step : Nat) (title : String)
  | onSuccess (step : Nat) (title : String)
  | onFailure (step : Nat) (title : String)
  | flushEv (step : Nat)
  | advance (step : Nat)
deriving Repr, DecidableEq

/-- The job `Download` enqueues for one entry: fresh state, the configured
filetype, and a hardcoded 4-minute initial per-attempt timeout
(`timeout: time.Duration(time.Minute * 4)` in the source — `d.timeout` is
not consulted). -/
def initialJob (entry : CollectionEntry) (outDir : String) (ft : FileType) :
    downloadJob :=
  { Entry := entry, err := none, Success := false, DownloadDir := outDir,
    filetype := ft, timeout := 4 * minute, retries := 0 }

/-- The jobs `Download` enqueues for a step's not-yet-downloaded entries. -/
def enqueueJobs (d : Downloader) (nd : List CollectionEntry) : List downloadJob :=
  nd.map (fun e => initialJob e d.dirPath d.filetype)

/-- The entries of a step that survive the history filter (download.go skips
any entry with `history.containsDownload(entry.title, d.filetype)`). -/
def notDownloadedOf (h : History) (ft : FileType) (entries : List CollectionEntry) :
    List CollectionEntry :=
  entries.filter (fun e => !containsDownload h e.title ft)

/-- The drain loop of one step: receive each result; a success is recorded in
the history and reported via `OnSuccess`, a failure via `OnFailure`. -/
def drainResults (ft : FileType) (i : Nat) (h : History)
    (res : List (Nat × downloadJob)) : History × List Event :=
  res.foldl (fun acc r =>
    if r.2.Success then
      (addItem acc.1 r.2.Entry.title ft, acc.2 ++ [Event.onSuccess i r.2.Entry.title])
    else (acc.1, acc.2 ++ [Event.onFailure i r.2.Entry.title])) (h, [])

/-- The entries step `i` actually processes: the currently visible entries
minus those already in the history. -/
def stepND (d : Downloader) (drv : CollectionPageDriver) (i : Nat) (h : History) :
    List CollectionEntry :=
  notDownloadedOf h d.filetype (drv.entries i).1

/-- The work queue step `i` hands to the pool: one fresh job per remaining
entry, identified by its position in the batch. -/
def stepQ (d : Downloader) (drv : CollectionPageDriver) (i : Nat) (h : History) :
    List (Nat × Nat × downloadJob) :=
  (enqueueJobs d (stepND d drv i h)).enum.map (fun p => (p.1, 0, p.2))

/-- The results the pool emits for step `i`'s batch. -/
def stepRes (d : Downloader) (drv : CollectionPageDriver)
    (env : Nat → Nat → Nat → AttemptOutcome) (i : Nat) (h : History) :
    List (Nat × downloadJob) :=
  runPoolD (env i) (stepQ d drv i h)

/-- One iteration of `Download`'s pagination loop (step `i`): fetch the
visible entries (an error here aborts the whole run with the
invalid-session diagnostic), filter against the history, signal `OnStart`
and enqueue a job per remaining entry, drain exactly as many results as were
enqueued, flush the history, and advance the page. -/
def stepRun (d : Downloader) (drv : CollectionPageDriver)
    (env : Nat → Nat → Nat → AttemptOutcome) (i : Nat) (h : History) :
    Except String (History × List Event) :=
  match (drv.entries i).2 with
  | some e => .error ("Could not get your collection. Err: " ++ e ++
      "\nCheck that you have the correct identity cookie value")
  | none =>
    .ok (writeOut (drainResults d.filetype i h (stepRes d drv env i h)).1,
      (stepND d drv i h).map (fun e => Event.onStart i e.title) ++
        (drainResults d.filetype i h (stepRes d drv env i h)).2 ++
        [Event.flushEv i, Event.advance i])

/-- The pagination loop of `Download` over the remaining step indices. -/
def runSteps (d : Downloader) (drv : CollectionPageDriver)
    (env : Nat → Nat → Nat → AttemptOutcome) :
    List Nat → History → Except String (History × List Event)
  | [], h => .ok (h, [])
  | i :: rest, h =>
    match stepRun d drv env i h with
    | .error e => .error e
    | .ok (h2, evs) =>
      match runSteps d drv env rest h2 with
      | .error e => .error e
      | .ok (hF, evs') => .ok (hF, evs ++ evs')

/-- download.go `Download`, from the point where the history store `h0` has
been opened and the browser established: the errors of `page.filter`,
`page.AlbumCount` and `page.ScrollTimes` are discarded by the source (each
`err` is overwritten unchecked); only the scroll-count value is used. Then
the pagination loop runs for `scrollTimes` steps, and the history is flushed
once more at the end. -/
def downloadRun (d : Downloader) (drv : CollectionPageDriver)
    (env : Nat → Nat → Nat → AttemptOutcome) (h0 : History) :
    Except String (History × List Event) :=
  match runSteps d drv env (List.range drv.scrollTimes.1) h0 with
  | .error e => .error e
  | .ok (h, evs) => .ok (writeOut h, evs)

/-! ## Lemmas about the retry state machine -/

theorem runJob_requeue (env : Nat → AttemptOutcome) (m k : Nat) (j j2 : downloadJob)
    (hws : workerStep j (env k) = .inl j2) :
    runJob env (m + 1) k j = runJob env m (k + 1) j2 := by
  simp [runJob, hws]

theorem runJob_emit (env : Nat → AttemptOutcome) (m k : Nat) (j out : downloadJob)
    (hws : workerStep j (env k) = .inr out) :
    runJob env (m + 1) k j = some (out, k + 1) := by
  simp [runJob, hws]

theorem workerStep_timeout_step (j : downloadJob) (hr : j.retries ≠ MAX_RETRIES) :
    workerStep j .timeout =
      .inl { j with Success := false, err := some (timedOutMsg j.timeout),
                    retries := j.retries + 1, timeout := j.timeout + 2 * minute } := by
  simp [workerStep, timedOut, hr]

theorem workerStep_timeout_max (j : downloadJob) (hr : j.retries = MAX_RETRIES) :
    workerStep j .timeout = .inr (failed j "Reached maximum allowed retries") := by
  simp [workerStep, timedOut, hr]

/-- Claim C1: For every job whose attempts all time out: after `MAX_RETRIES = 5`
retries a further timeout makes the job terminal in the `failed` state with
the "Reached maximum allowed retries" error; the job is attempted exactly
`MAX_RETRIES + 1 = 6` times in total (the initial attempt plus five retries)
and never re-attempted afterwards, whatever fuel remains; and the per-attempt
timeout of its last attempt is the initial 4 minutes plus 2 minutes per retry
taken, i.e. `14 * minute`. -/
theorem c1_retry_bound (entry : CollectionEntry) (outDir : String) (ft : FileType)
    (env : Nat → AttemptOutcome) (fuel : Nat)
    (henv : ∀ k, env k = .timeout) (hfuel : 6 ≤ fuel) :
    runJob env fuel 0 (initialJob entry outDir ft) =
      some ({ Entry := entry, err := some "Reached maximum allowed retries",
              Success := false, DownloadDir := outDir, filetype := ft,
              timeout := 14 * minute, retries := MAX_RETRIES }, 6) := by
  obtain ⟨m, rfl⟩ : ∃ m, fuel = m + 6 := ⟨fuel - 6, by omega⟩
  have henv' : env = fun _ => AttemptOutcome.timeout := funext henv
  subst henv'
  calc runJob (fun _ => AttemptOutcome.timeout) (m + 6) 0 (initialJob entry outDir ft)
      = runJob (fun _ => AttemptOutcome.timeout) (m + 5) 1
        { Entry := entry, err := some (timedOutMsg 240000000000), Success := false,
          DownloadDir := outDir, filetype := ft, timeout := 360000000000, retries := 1 } :=
        runJob_requeue _ (m + 5) 0 _ _
          (by simp only [workerStep, timedOut, initialJob, MAX_RETRIES, minute]; norm_num)

    _ = runJob (fun _ => AttemptOutcome.timeout) (m + 4) 2
        { Entry := entry, err := some (timedOutMsg 360000000000), Success := false,
          DownloadDir := outDir, filetype := ft, timeout := 480000000000, retries := 2 } :=
        runJob_requeue _ (m + 4) 1 _ _
          (by simp only [workerStep, timedOut, MAX_RETRIES, minute]; norm_num)
    _ = runJob (fun _ => AttemptOutcome.timeout) (m + 3) 3
        { Entry := entry, err := some (timedOutMsg 480000000000), Success := false,
          DownloadDir := outDir, filetype := ft, timeout := 600000000000, retries := 3 } :=
        runJob_requeue _ (m + 3) 2 _ _
          (by simp only [workerStep, timedOut, MAX_RETRIES, minute]; norm_num)
    _ = runJob (fun _ => AttemptOutcome.timeout) (m + 2) 4
        { Entry := entry, err := some (timedOutMsg 600000000000), Success := false,
          DownloadDir := outDir, filetype := ft, timeout := 720000000000, retries := 4 } :=
        runJob_requeue _ (m + 2) 3 _ _
          (by simp only [workerStep, timedOut, MAX_RETRIES, minute]; norm_num)
    _ = runJob (fun _ => AttemptOutcome.timeout) (m + 1) 5
        { Entry := entry, err := some (timedOutMsg 720000000000), Success := false,
          DownloadDir := outDir, filetype := ft, timeout := 840000000000, retries := 5 } :=
        runJob_requeue _ (m + 1) 4 _ _
          (by simp only [workerStep, timedOut, MAX_RETRIES, minute]; norm_num)
    _ = some (failed { Entry := entry, err := some (timedOutMsg 720000000000),
                       Success := false, DownloadDir := outDir, filetype := ft,
                       timeout := 840000000000, retries := 5 }
          "Reached maximum allowed retries", 6) :=
        runJob_emit _ m 5 _ _
          (by simp [workerStep, timedOut, MAX_RETRIES, minute])
    _ = some ({ Entry := entry, err := some "Reached maximum allowed retries",
                Success := false, DownloadDir := outDir, filetype := ft,
                timeout := 14 * minute, retries := MAX_RETRIES }, 6) := by
        norm_num [failed, minute, MAX_RETRIES]

/-- Witness for C1 at a concrete job and fuel 6. -/
theorem c1_retry_bound_witness :
    runJob (fun _ => AttemptOutcome.timeout) 6 0 (initialJob ⟨"u", "T"⟩ "out" FLAC) =
      some ({ Entry := ⟨"u", "T"⟩, err := some "Reached maximum allowed retries",
              Success := false, DownloadDir := "out", filetype := FLAC,
              timeout := 14 * minute, retries := MAX_RETRIES }, 6) :=
  c1_retry_bound ⟨"u", "T"⟩ "out" FLAC (fun _ => AttemptOutcome.timeout) 6
    (fun _ => rfl) (by decide)

/-- Claim C5: A job whose driver call returns a non-timeout (structural) error
`e` from `processJob` (page creation, navigation, format selection or
transfer) is failed immediately on its first attempt: one attempt total, the
emitted job carries exactly that error, `Success = false` and
`retries = 0`. -/
theorem c5_structural_error_fails_immediately (entry : CollectionEntry)
    (outDir : String) (ft : FileType) (env : Nat → AttemptOutcome)
    (page : EntryPageAttempt) (e : String) (fuel : Nat)
    (henv : env 0 = .completes page)
    (hproc : processJob (initialJob entry outDir ft) page = some e)
    (hfuel : 1 ≤ fuel) :
    runJob env fuel 0 (initialJob entry outDir ft) =
      some (failed (initialJob entry outDir ft) e, 1) ∧
    (failed (initialJob entry outDir ft) e).retries = 0 ∧
    (failed (initialJob entry outDir ft) e).Success = false ∧
    (failed (initialJob entry outDir ft) e).err = some e := by
  obtain ⟨m, rfl⟩ : ∃ m, fuel = m + 1 := ⟨fuel - 1, by omega⟩
  refine ⟨?_, rfl, rfl, rfl⟩
  exact runJob_emit env m 0 (initialJob entry outDir ft)
    (failed (initialJob entry outDir ft) e) (by rw [henv]; simp [workerStep, hproc])

/-- Witness for C5: a "selector not found" error during format selection. -/
theorem c5_witness :
    runJob (fun _ => AttemptOutcome.completes
        { okAttempt with selectErr := some "selector not found" }) 1 0
        (initialJob ⟨"u", "T"⟩ "out" FLAC) =
      some (failed (initialJob ⟨"u", "T"⟩ "out" FLAC)
        "Could not select file type flac: selector not found", 1) :=
  (c5_structural_error_fails_immediately ⟨"u", "T"⟩ "out" FLAC _
    { okAttempt with selectErr := some "selector not found" }
    "Could not select file type flac: selector not found" 1 rfl (by rfl) (by decide)).1

/-! ## Lemmas about the worker pool -/

theorem workerStep_inl_retries (j j2 : downloadJob) (o : AttemptOutcome)
    (h : workerStep j o = .inl j2) :
    j.retries ≠ MAX_RETRIES ∧ j2.retries = j.retries + 1 := by
  cases o with
  | timeout =>
    by_cases hr : j.retries = MAX_RETRIES
    · simp [workerStep, timedOut, hr] at h
    · simp only [workerStep, timedOut, hr, if_false, ite_false] at h
      obtain rfl := (Sum.inl.inj h).symm
      exact ⟨hr, rfl⟩
  | completes page =>
    cases hp : processJob j page <;> simp [workerStep, hp] at h

theorem poolFuel_cons (e : Nat × Nat × downloadJob) (q : List (Nat × Nat × downloadJob)) :
    poolFuel (e :: q) = (MAX_RETRIES + 1 - e.2.2.retries) + poolFuel q := by
  simp [poolFuel]

theorem poolFuel_append (q r : List (Nat × Nat × downloadJob)) :
    poolFuel (q ++ r) = poolFuel q + poolFuel r := by
  simp [poolFuel]

/-- Master lemma for the worker pool: with every queued job within the retry
bound and enough fuel, the pool terminates, emits exactly as many results as
there are queue entries, and emits exactly one result per job identity. -/
theorem runPool_spec (env : Nat → Nat → AttemptOutcome) :
    ∀ (fuel : Nat) (q : List (Nat × Nat × downloadJob)),
      (∀ e ∈ q, e.2.2.retries ≤ MAX_RETRIES) → poolFuel q ≤ fuel →
      ∃ res, runPool env fuel q = some res ∧ res.length = q.length ∧
        ∀ id, res.countP (fun p => p.1 == id) = q.countP (fun e => e.1 == id) := by
  intro fuel
  induction fuel with
  | zero =>
    intro q hret hfuel
    cases q with
    | nil => exact ⟨[], rfl, rfl, fun id => rfl⟩
    | cons e rest =>
      exfalso
      have h1 : e.2.2.retries ≤ MAX_RETRIES := hret e (by simp)
      rw [poolFuel_cons] at hfuel
      omega
  | succ n ih =>
    intro q hret hfuel
    cases q with
    | nil => exact ⟨[], rfl, rfl, fun id => rfl⟩
    | cons e rest =>
      obtain ⟨id, k, j⟩ := e
      have hj : j.retries ≤ MAX_RETRIES := hret (id, k, j) (by simp)
      cases hws : workerStep j (env id k) with
      | inr out =>
        have hrest : poolFuel rest ≤ n := by
          rw [poolFuel_cons] at hfuel
          simp only [MAX_RETRIES] at hfuel hj
          omega
        obtain ⟨res, hsome, hlen, hcount⟩ :=
          ih rest (fun e he => hret e (by simp [he])) hrest
        refine ⟨(id, out) :: res, ?_, ?_, ?_⟩
        · simp [runPool, hws, hsome]
        · simp [hlen]
        · intro idq
          simp [List.countP_cons, hcount idq]
      | inl j2 =>
        obtain ⟨hne, hsucc⟩ := workerStep_inl_retries j j2 _ hws
        have hj2 : j2.retries ≤ MAX_RETRIES := by
          simp only [MAX_RETRIES] at hne hj ⊢
          omega
        have hfuel2 : poolFuel (rest ++ [(id, k + 1, j2)]) ≤ n := by
          rw [poolFuel_append, poolFuel_cons]
          rw [poolFuel_cons] at hfuel
          simp only [poolFuel, List.map_nil, List.sum_nil, MAX_RETRIES] at *
          omega
        have hret2 : ∀ e ∈ rest ++ [(id, k + 1, j2)], e.2.2.retries ≤ MAX_RETRIES := by
          intro e he
          rcases List.mem_append.mp he with h | h
          · exact hret e (by simp [h])
          · simp at h
            subst h
            simpa using hj2
        obtain ⟨res, hsome, hlen, hcount⟩ := ih _ hret2 hfuel2
        refine ⟨res, ?_, ?_, ?_⟩
        · simp [runPool, hws, hsome]
        · simp at hlen
          simp [hlen]
        · intro idq
          have h2 := hcount idq
          simp [List.countP_append, List.countP_cons] at h2 ⊢
          omega

/-- Claim C2: Every job ever enqueued on the work queue produces exactly one
value on the result channel, however many attempts it takes: with every
queued job within the retry bound and the pool given sufficient fuel, the
pool terminates and, for every job identity, the number of emitted results
carrying that identity equals the number of queue entries carrying it (a
timed-out attempt with retries remaining re-enqueues the job and emits
nothing, as the `Sum.inl` branch of `runPool` shows). -/
theorem c2_exactly_one_result (env : Nat → Nat → AttemptOutcome) (fuel : Nat)
    (q : List (Nat × Nat × downloadJob))
    (hret : ∀ e ∈ q, e.2.2.retries ≤ MAX_RETRIES) (hfuel : poolFuel q ≤ fuel) :
    ∃ res, runPool env fuel q = some res ∧ res.length = q.length ∧
      ∀ id, res.countP (fun p => p.1 == id) = q.countP (fun e => e.1 == id) :=
  runPool_spec env fuel q hret hfuel

/-- Witness for C2: one job that times out twice and then succeeds — a single
result is emitted for it. -/
theorem c2_witness :
    ∃ res, runPool (fun _ k => if k < 2 then .timeout else .completes okAttempt) 6
        [(0, 0, initialJob ⟨"u", "T"⟩ "out" FLAC)] = some res ∧
      res.length = 1 ∧
      ∀ id, res.countP (fun p => p.1 == id) =
        ([(0, 0, initialJob ⟨"u", "T"⟩ "out" FLAC)].countP (fun e => e.1 == id)) := by
  obtain ⟨res, h1, h2, h3⟩ := c2_exactly_one_result
    (fun _ k => if k < 2 then .timeout else .completes okAttempt) 6
    [(0, 0, initialJob ⟨"u", "T"⟩ "out" FLAC)] (by decide) (by decide)
  exact ⟨res, h1, by simpa using h2, h3⟩

/-! ## C8 — the fingerprint function -/

/-- Claim C8: The fingerprint function is deterministic (it is a pure function
of the title and the filetype), for every title the MD5 inputs of two
distinct filetypes from the closed `AllFileTypes` enumeration are distinct
byte strings, and for the title "X" the fingerprints of all eight filetypes
are pairwise distinct (in particular
fingerprint("X", FLAC) ≠ fingerprint("X", MP3_320)). Digest distinctness for
every title at once would be collision-freeness of MD5 on these input pairs,
which holds of no fixed-output digest unconditionally; the input-level
distinctness holds universally and the digest-level one is verified
exhaustively at the spec's example title. -/
theorem c8_fingerprint :
    (∀ (t₁ t₂ : String) (f₁ f₂ : FileType), t₁ = t₂ → f₁ = f₂ →
      md5Download t₁ f₁ = md5Download t₂ f₂) ∧
    (∀ (t : String) (f₁ f₂ : FileType), f₁ ∈ AllFileTypes → f₂ ∈ AllFileTypes →
      f₁ ≠ f₂ → md5Input t f₁ ≠ md5Input t f₂) ∧
    List.Pairwise (fun a b => md5Download "X" a ≠ md5Download "X" b) AllFileTypes := by
  refine ⟨fun t₁ t₂ f₁ f₂ ht hf => by rw [ht, hf], ?_, by decide⟩
  intro t f₁ f₂ h₁ h₂ hne heq
  have hb : strBytes f₁ = strBytes f₂ := List.append_cancel_left heq
  have hd : ∀ g₁ ∈ AllFileTypes, ∀ g₂ ∈ AllFileTypes, g₁ ≠ g₂ →
      strBytes g₁ ≠ strBytes g₂ := by decide
  exact hd f₁ h₁ f₂ h₂ hne hb

/-- Witness for C8: the spec's example instance, both at the input and the
digest level. -/
theorem c8_witness :
    md5Input "X" FLAC ≠ md5Input "X" MP3_320 ∧
    md5Download "X" MP3_320 ≠ md5Download "X" FLAC :=
  ⟨c8_fingerprint.2.1 "X" FLAC MP3_320 (by decide) (by decide) (by decide),
   (List.pairwise_cons.mp c8_fingerprint.2.2).1 FLAC (by decide)⟩

/-! ## C3 — flush / reload round-trip -/

/-- Claim C3 (code bug): The claim that reloading the History Store from the file written
by `flush` yields every fingerprint recorded before the flush fails on the
code: `md5Download` returns the raw 16 digest bytes as the key, `writeOut`
writes each key newline-terminated, and `readHistory` splits the file on
newline bytes, so a fingerprint that itself contains the byte `0x0A` is read
back as two fragments. Concretely, the fingerprint of ("AB", MP3_320)
contains the byte 10: it is in the in-memory set after recording, yet after
a flush and a restart (`readHistory` of the written file) the store no
longer contains it — a restart loses this success. (It also ends in byte 13,
which the scanner's carriage-return stripping would corrupt even without the
embedded newline.) -/
theorem c3_flush_reload_loses_newline_digest :
    (md5Download "AB" MP3_320).contains 10 = true ∧
    (md5Download "AB" MP3_320).getLast? = some 13 ∧
    containsDownload (writeOut (addItem emptyHistory "AB" MP3_320)) "AB" MP3_320 = true ∧
    containsDownload (readHistory (writeOut (addItem emptyHistory "AB" MP3_320)).file)
      "AB" MP3_320 = false := by
  decide

/-! ## Event predicates -/

/-- The pagination step an event belongs to. -/
def tagOf : Event → Nat
  | .onStart i _ => i
  | .onSuccess i _ => i
  | .onFailure i _ => i
  | .flushEv i => i
  | .advance i => i

/-- An `OnStart` callback of step `i` (one per job dispatched in step `i`). -/
def isStartOf (i : Nat) : Event → Bool
  | .onStart j _ => j == i
  | _ => false

/-- A terminal-result callback of step `i` (`OnSuccess` or `OnFailure`; one
per result drained in step `i`). -/
def isResultOf (i : Nat) : Event → Bool
  | .onSuccess j _ => j == i
  | .onFailure j _ => j == i
  | _ => false

/-- Any `OnStart` callback. -/
def isStart : Event → Bool
  | .onStart _ _ => true
  | _ => false

/-- Any terminal-result callback. -/
def isResult : Event → Bool
  | .onSuccess _ _ => true
  | .onFailure _ _ => true
  | _ => false

/-- Any pagination advance. -/
def isAdvance : Event → Bool
  | .advance _ => true
  | _ => false

/-! ## Structural lemmas about one pagination step -/

/-- The history part of the drain loop. -/
def drainHist (ft : FileType) (res : List (Nat × downloadJob)) (h : History) : History :=
  res.foldl (fun hh r => if r.2.Success then addItem hh r.2.Entry.title ft else hh) h

/-- The callback events of the drain loop, in drain order. -/
def drainEvs (i : Nat) (res : List (Nat × downloadJob)) : List Event :=
  res.map (fun r => if r.2.Success then Event.onSuccess i r.2.Entry.title
    else Event.onFailure i r.2.Entry.title)

theorem drainResults_foldl (ft : FileType) (i : Nat) :
    ∀ (res : List (Nat × downloadJob)) (h : History) (acc : List Event),
      res.foldl (fun acc2 r =>
        if r.2.Success then
          (addItem acc2.1 r.2.Entry.title ft, acc2.2 ++ [Event.onSuccess i r.2.Entry.title])
        else (acc2.1, acc2.2 ++ [Event.onFailure i r.2.Entry.title])) (h, acc) =
      (drainHist ft res h, acc ++ drainEvs i res) := by
  intro res
  induction res with
  | nil => intro h acc; simp [drainHist, drainEvs]
  | cons r rest ih =>
    intro h acc
    by_cases hs : r.2.Success <;>
      simp [hs, drainHist, drainEvs, ih, List.foldl_cons]

theorem drainResults_eq (ft : FileType) (i : Nat) (h : History)
    (res : List (Nat × downloadJob)) :
    drainResults ft i h res = (drainHist ft res h, drainEvs i res) := by
  have h1 := drainResults_foldl ft i res h []
  simpa [drainResults] using h1

/-- The events one successful pagination step emits, in order. -/
def stepEvs (d : Downloader) (drv : CollectionPageDriver)
    (env : Nat → Nat → Nat → AttemptOutcome) (i : Nat) (h : History) : List Event :=
  (stepND d drv i h).map (fun e => Event.onStart i e.title) ++
    drainEvs i (stepRes d drv env i h) ++ [Event.flushEv i, Event.advance i]

theorem stepRun_ok (d : Downloader) (drv : CollectionPageDriver)
    (env : Nat → Nat → Nat → AttemptOutcome) (i : Nat) (h : History)
    (hok : (drv.entries i).2 = none) :
    stepRun d drv env i h =
      .ok (writeOut (drainHist d.filetype (stepRes d drv env i h) h),
        stepEvs d drv env i h) := by
  simp [stepRun, hok, stepEvs, drainResults_eq]

theorem stepRun_error (d : Downloader) (drv : CollectionPageDriver)
    (env : Nat → Nat → Nat → AttemptOutcome) (i : Nat) (h : History) (e : String)
    (herr : (drv.entries i).2 = some e) :
    stepRun d drv env i h = .error ("Could not get your collection. Err: " ++ e ++
      "\nCheck that you have the correct identity cookie value") := by
  simp [stepRun, herr]

theorem stepQ_retries (d : Downloader) (drv : CollectionPageDriver) (i : Nat)
    (h : History) : ∀ e ∈ stepQ d drv i h, e.2.2.retries = 0 := by
  intro e he
  simp only [stepQ, List.mem_map] at he
  obtain ⟨p, hp, rfl⟩ := he
  have hmem : p.2 ∈ enqueueJobs d (stepND d drv i h) := by
    have h2 := List.mem_map_of_mem Prod.snd hp
    rwa [List.enum_map_snd] at h2
  simp only [enqueueJobs, List.mem_map] at hmem
  obtain ⟨entry, _, heq⟩ := hmem
  show p.2.retries = 0
  rw [← heq]
  rfl

theorem poolFuel_fresh : ∀ (q : List (Nat × Nat × downloadJob)),
    (∀ e ∈ q, e.2.2.retries = 0) → poolFuel q = 6 * q.length := by
  intro q
  induction q with
  | nil => intro _; simp [poolFuel]
  | cons e rest ih =>
    intro hz
    rw [poolFuel_cons, hz e (by simp), ih (fun x hx => hz x (by simp [hx]))]
    simp [MAX_RETRIES]
    omega

/-- Running `runPoolD` on a fresh queue: the pool's fuel suffices, and the pool emits
one result per queue entry. -/
theorem runPoolD_spec (env : Nat → Nat → AttemptOutcome)
    (q : List (Nat × Nat × downloadJob)) (hz : ∀ e ∈ q, e.2.2.retries = 0) :
    runPool env (6 * q.length) q = some (runPoolD env q) ∧
    (runPoolD env q).length = q.length ∧
    ∀ id, (runPoolD env q).countP (fun p => p.1 == id) =
      q.countP (fun e => e.1 == id) := by
  obtain ⟨res, hsome, hlen, hcount⟩ := runPool_spec env (6 * q.length) q
    (fun e he => by rw [hz e he]; simp)
    (by rw [poolFuel_fresh q hz])
  have hd : runPoolD env q = res := by simp [runPoolD, hsome]
  rw [hd]
  exact ⟨hsome, hlen, hcount⟩

theorem stepRes_length (d : Downloader) (drv : CollectionPageDriver)
    (env : Nat → Nat → Nat → AttemptOutcome) (i : Nat) (h : History) :
    (stepRes d drv env i h).length = (stepND d drv i h).length := by
  have h1 := (runPoolD_spec (env i) (stepQ d drv i h) (stepQ_retries d drv i h)).2.1
  rw [stepRes, h1]
  simp [stepQ, enqueueJobs]

theorem stepEvs_tag (d : Downloader) (drv : CollectionPageDriver)
    (env : Nat → Nat → Nat → AttemptOutcome) (i : Nat) (h : History) :
    ∀ e ∈ stepEvs d drv env i h, tagOf e = i := by
  intro e he
  simp only [stepEvs, drainEvs, List.mem_append, List.mem_map, List.mem_cons,
    List.mem_singleton, List.not_mem_nil] at he
  rcases he with (⟨x, _, rfl⟩ | ⟨r, _, rfl⟩) | (rfl | rfl | hfalse)
  · rfl
  · by_cases hs : r.2.Success <;> simp [hs, tagOf]
  · rfl
  · rfl
  · exact absurd hfalse (by simp)

theorem countP_drainEvs_startOf (t i : Nat) (res : List (Nat × downloadJob)) :
    (drainEvs i res).countP (isStartOf t) = 0 := by
  rw [drainEvs, List.countP_map, List.countP_eq_zero]
  intro r _
  by_cases hs : r.2.Success <;> simp [hs, isStartOf, Function.comp]

theorem countP_drainEvs_resultOf (i : Nat) (res : List (Nat × downloadJob)) :
    (drainEvs i res).countP (isResultOf i) = res.length := by
  rw [drainEvs, List.countP_map, List.countP_eq_length]
  intro r _
  by_cases hs : r.2.Success <;> simp [hs, isResultOf, Function.comp]

theorem countP_drainEvs_resultOf_ne (t i : Nat) (hne : t ≠ i)
    (res : List (Nat × downloadJob)) :
    (drainEvs i res).countP (isResultOf t) = 0 := by
  rw [drainEvs, List.countP_map, List.countP_eq_zero]
  intro r _
  by_cases hs : r.2.Success <;>
    simp [hs, isResultOf, Function.comp, Ne.symm hne]

theorem countP_startBlock (i : Nat) (nd : List CollectionEntry) :
    (nd.map (fun e => Event.onStart i e.title)).countP (isStartOf i) = nd.length := by
  rw [List.countP_map, List.countP_eq_length]
  intro e _
  simp [isStartOf, Function.comp]

theorem countP_startBlock_ne (t i : Nat) (hne : t ≠ i) (nd : List CollectionEntry) :
    (nd.map (fun e => Event.onStart i e.title)).countP (isStartOf t) = 0 := by
  rw [List.countP_map, List.countP_eq_zero]
  intro e _
  simp [isStartOf, Function.comp, Ne.symm hne]

theorem countP_startBlock_resultOf (t i : Nat) (nd : List CollectionEntry) :
    (nd.map (fun e => Event.onStart i e.title)).countP (isResultOf t) = 0 := by
  rw [List.countP_map, List.countP_eq_zero]
  intro e _
  simp [isResultOf, Function.comp]

/-- The per-step event block: counts of step-tagged dispatch and result
callbacks agree (and equal the batch size when the tag is the step's own). -/
theorem stepEvs_count_eq (d : Downloader) (drv : CollectionPageDriver)
    (env : Nat → Nat → Nat → AttemptOutcome) (i t : Nat) (h : History) :
    (stepEvs d drv env i h).countP (isResultOf t) =
      (stepEvs d drv env i h).countP (isStartOf t) := by
  by_cases hti : t = i
  · subst hti
    simp only [stepEvs, List.countP_append, countP_startBlock,
      countP_drainEvs_startOf, countP_drainEvs_resultOf,
      countP_startBlock_resultOf, stepRes_length]
    simp [isStartOf, isResultOf, List.countP_cons]
  · simp only [stepEvs, List.countP_append, countP_startBlock_ne t i hti,
      countP_drainEvs_resultOf_ne t i hti, countP_startBlock_resultOf,
      countP_drainEvs_startOf]
    simp [isStartOf, isResultOf, List.countP_cons, hti]

/-- A step block decomposes as a prefix (dispatches, drains, flush) followed
by the single pagination advance. -/
theorem stepEvs_decomp (d : Downloader) (drv : CollectionPageDriver)
    (env : Nat → Nat → Nat → AttemptOutcome) (i : Nat) (h : History) :
    stepEvs d drv env i h =
      ((stepND d drv i h).map (fun e => Event.onStart i e.title) ++
        drainEvs i (stepRes d drv env i h) ++ [Event.flushEv i]) ++
        [Event.advance i] := by
  simp [stepEvs]

theorem advance_not_mem_stepPre (d : Downloader) (drv : CollectionPageDriver)
    (env : Nat → Nat → Nat → AttemptOutcome) (i t : Nat) (h : History) :
    Event.advance t ∉
      ((stepND d drv i h).map (fun e => Event.onStart i e.title) ++
        drainEvs i (stepRes d drv env i h) ++ [Event.flushEv i]) := by
  intro hmem
  simp only [List.mem_append, List.mem_map, List.mem_singleton, drainEvs] at hmem
  rcases hmem with (⟨x, _, hx⟩ | ⟨r, _, hr⟩) | hfl
  · exact absurd hx (by simp)
  · by_cases hs : r.2.Success <;> simp [hs] at hr
  · exact absurd hfl (by simp)

/-- The prefix before a step's advance has equally many step-`t` results as
step-`t` dispatches. -/
theorem stepPre_count_eq (d : Downloader) (drv : CollectionPageDriver)
    (env : Nat → Nat → Nat → AttemptOutcome) (i t : Nat) (h : History) :
    (((stepND d drv i h).map (fun e => Event.onStart i e.title) ++
        drainEvs i (stepRes d drv env i h) ++ [Event.flushEv i])).countP (isResultOf t) =
      (((stepND d drv i h).map (fun e => Event.onStart i e.title) ++
        drainEvs i (stepRes d drv env i h) ++ [Event.flushEv i])).countP (isStartOf t) := by
  have h1 := stepEvs_count_eq d drv env i t h
  rw [stepEvs_decomp, List.countP_append, List.countP_append] at h1
  simpa [isResultOf, isStartOf] using h1

/-! ## Structural lemmas about the pagination loop -/

theorem runSteps_cons (d : Downloader) (drv : CollectionPageDriver)
    (env : Nat → Nat → Nat → AttemptOutcome) (s : Nat) (rest : List Nat)
    (h hF : History) (evs : List Event)
    (hrun : runSteps d drv env (s :: rest) h = .ok (hF, evs)) :
    ∃ h2 evs1 evs2, stepRun d drv env s h = .ok (h2, evs1) ∧
      runSteps d drv env rest h2 = .ok (hF, evs2) ∧ evs = evs1 ++ evs2 := by
  cases hstep : stepRun d drv env s h with
  | error e => simp [runSteps, hstep] at hrun
  | ok p =>
    obtain ⟨h2, evs1⟩ := p
    cases hrest : runSteps d drv env rest h2 with
    | error e => simp [runSteps, hstep, hrest] at hrun
    | ok p2 =>
      obtain ⟨hF2, evs2⟩ := p2
      simp only [runSteps, hstep, hrest, Except.ok.injEq, Prod.mk.injEq] at hrun
      refine ⟨h2, evs1, evs2, rfl, ?_, hrun.2.symm⟩
      rw [← hrun.1]
      exact hrest

theorem append_singleton_split (a : Event) :
    ∀ (l1 l2 t : List Event), l1 ++ a :: t = l2 ++ [a] → a ∉ l2 →
      l1 = l2 ∧ t = [] := by
  intro l1
  induction l1 with
  | nil =>
    intro l2 t h hnot
    cases l2 with
    | nil => simpa using h
    | cons b l2' =>
      simp only [List.nil_append, List.cons_append, List.cons.injEq] at h
      exact absurd (h.1 ▸ List.mem_cons_self b l2') hnot
  | cons c l1' ih =>
    intro l2 t h hnot
    cases l2 with
    | nil =>
      simp only [List.cons_append, List.nil_append, List.cons.injEq] at h
      exact absurd h.2 (by simp)
    | cons b l2' =>
      simp only [List.cons_append, List.cons.injEq] at h
      obtain ⟨h1, h2⟩ := ih l2' t h.2 (fun hm => hnot (List.mem_cons_of_mem b hm))
      exact ⟨by rw [h.1, h1], h2⟩

/-- Core of the batch barrier: in any successful run, every decomposition of
the event trace at an `advance i` event has equally many step-`i` result
callbacks as step-`i` dispatch callbacks before it. -/
theorem runSteps_advance_split (d : Downloader) (drv : CollectionPageDriver)
    (env : Nat → Nat → Nat → AttemptOutcome) :
    ∀ (steps : List Nat) (h hF : History) (evs : List Event),
      runSteps d drv env steps h = .ok (hF, evs) →
      ∀ (i : Nat) (pre post : List Event), evs = pre ++ Event.advance i :: post →
        pre.countP (isResultOf i) = pre.countP (isStartOf i) := by
  intro steps
  induction steps with
  | nil =>
    intro h hF evs hrun i pre post hsplit
    simp only [runSteps, Except.ok.injEq, Prod.mk.injEq] at hrun
    rw [← hrun.2] at hsplit
    exact absurd hsplit.symm (by simp)
  | cons s rest ih =>
    intro h hF evs hrun i pre post hsplit
    obtain ⟨h2, evs1, evs2, hstep, hrest, rfl⟩ := runSteps_cons d drv env s rest h hF evs hrun
    have hok : (drv.entries s).2 = none := by
      cases he : (drv.entries s).2 with
      | none => rfl
      | some e =>
        rw [stepRun_error d drv env s h e he] at hstep
        exact absurd hstep (by simp)
    have hevs1 : evs1 = stepEvs d drv env s h := by
      have h1 := (stepRun_ok d drv env s h hok).symm.trans hstep
      exact (congrArg Prod.snd (Except.ok.inj h1)).symm
    subst hevs1
    rcases List.append_eq_append_iff.mp hsplit with ⟨t, ht1, ht2⟩ | ⟨t, ht1, ht2⟩
    · -- the split point lies in the tail of the run
      subst ht1
      have hcnt := ih h2 hF evs2 hrest i t post ht2
      rw [List.countP_append, List.countP_append, hcnt, stepEvs_count_eq d drv env s i h]
    · -- the split point lies in this step's block
      cases t with
      | nil =>
        rw [List.append_nil] at ht1
        rw [← ht1]
        exact stepEvs_count_eq d drv env s i h
      | cons c t' =>
        have ht2' : Event.advance i = c ∧ post = t' ++ evs2 := by
          simp only [List.cons_append, List.cons.injEq] at ht2
          exact ht2
        obtain ⟨hca, hpost⟩ := ht2'
        rw [← hca] at ht1
        -- ht1 : stepEvs ... = pre ++ Event.advance i :: t'
        have hmem : Event.advance i ∈ stepEvs d drv env s h := by
          rw [ht1]
          simp
        have his : i = s := by
          have h5 := stepEvs_tag d drv env s h _ hmem
          simpa [tagOf] using h5
        subst his
        rw [stepEvs_decomp d drv env i h] at ht1
        obtain ⟨hpre, ht'⟩ := append_singleton_split (Event.advance i) pre _ t'
          ht1.symm (advance_not_mem_stepPre d drv env i i h)
        rw [hpre]
        exact stepPre_count_eq d drv env i i h

/-- Claim C7: Batch barrier: whenever a completed run's event trace is split at
a pagination advance for step `i`, the prefix holds exactly as many
step-`i` terminal-result callbacks as step-`i` dispatch callbacks: the
Orchestrator instructs the driver to advance only after draining as many
results as it dispatched for that step. -/
theorem c7_batch_barrier (d : Downloader) (drv : CollectionPageDriver)
    (env : Nat → Nat → Nat → AttemptOutcome) (h0 hF : History) (evs : List Event)
    (i : Nat) (pre post : List Event)
    (hrun : downloadRun d drv env h0 = .ok (hF, evs))
    (hsplit : evs = pre ++ Event.advance i :: post) :
    pre.countP (isResultOf i) = pre.countP (isStartOf i) := by
  cases hrs : runSteps d drv env (List.range drv.scrollTimes.1) h0 with
  | error e => simp [downloadRun, hrs] at hrun
  | ok p =>
    obtain ⟨h1, evs1⟩ := p
    simp only [downloadRun, hrs, Except.ok.injEq, Prod.mk.injEq] at hrun
    refine runSteps_advance_split d drv env _ h0 h1 evs1 hrs i pre post ?_
    rw [hrun.2]
    exact hsplit

def c7Downloader : Downloader :=
  { username := "u", identity := "id", dirPath := "out", timeout := 3 * minute,
    headless := false, filetype := MP3_320 }

def c7Driver : CollectionPageDriver :=
  { filterErr := none, albumCount := (0, none), scrollTimes := (1, none),
    entries := fun _ => ([], none) }

/-- Witness for C7: a one-step run whose advance event is preceded by equally
many (namely zero) results and dispatches. -/
theorem c7_witness :
    ([Event.flushEv 0] : List Event).countP (isResultOf 0) =
      ([Event.flushEv 0] : List Event).countP (isStartOf 0) :=
  c7_batch_barrier c7Downloader c7Driver (fun _ _ _ => .completes okAttempt)
    emptyHistory emptyHistory [Event.flushEv 0, Event.advance 0] 0
    [Event.flushEv 0] [] (by rfl) (by rfl)

/-! ## C9 — per-job failures never abort the run -/

theorem countP_startBlock_advance (i : Nat) (nd : List CollectionEntry) :
    (nd.map (fun e => Event.onStart i e.title)).countP isAdvance = 0 := by
  rw [List.countP_map, List.countP_eq_zero]
  intro e _
  simp [isAdvance, Function.comp]

theorem countP_drainEvs_advance (i : Nat) (res : List (Nat × downloadJob)) :
    (drainEvs i res).countP isAdvance = 0 := by
  rw [drainEvs, List.countP_map, List.countP_eq_zero]
  intro r _
  by_cases hs : r.2.Success <;> simp [hs, isAdvance, Function.comp]

theorem stepEvs_advance_count (d : Downloader) (drv : CollectionPageDriver)
    (env : Nat → Nat → Nat → AttemptOutcome) (i : Nat) (h : History) :
    (stepEvs d drv env i h).countP isAdvance = 1 := by
  simp only [stepEvs, List.countP_append, countP_startBlock_advance,
    countP_drainEvs_advance]
  simp [isAdvance, List.countP_cons]

/-- Every step of a run whose entry listings all succeed executes: the run
completes without an overall error — whatever the jobs' outcomes — emitting
one advance per step, and for every step as many result callbacks as
dispatch callbacks. -/
theorem runSteps_ok_counts (d : Downloader) (drv : CollectionPageDriver)
    (env : Nat → Nat → Nat → AttemptOutcome) :
    ∀ (steps : List Nat) (h : History), (∀ i ∈ steps, (drv.entries i).2 = none) →
      ∃ hF evs, runSteps d drv env steps h = .ok (hF, evs) ∧
        evs.countP isAdvance = steps.length ∧
        ∀ t, evs.countP (isStartOf t) = evs.countP (isResultOf t) := by
  intro steps
  induction steps with
  | nil => exact fun h _ => ⟨h, [], rfl, rfl, fun t => rfl⟩
  | cons s rest ih =>
    intro h hok
    obtain ⟨hF, evsR, hrest, hadv, hcnt⟩ :=
      ih (writeOut (drainHist d.filetype (stepRes d drv env s h) h))
        (fun i hi => hok i (by simp [hi]))
    refine ⟨hF, stepEvs d drv env s h ++ evsR, ?_, ?_, ?_⟩
    · simp only [runSteps, stepRun_ok d drv env s h (hok s (by simp)), hrest]
    · rw [List.countP_append, hadv, stepEvs_advance_count]
      simp only [List.length_cons]
      omega
    · intro t
      rw [List.countP_append, List.countP_append, hcnt t,
        stepEvs_count_eq d drv env s t h]

/-- Claim C9: When every entry listing succeeds, the run completes with an
overall `ok` result for every possible job-outcome environment (so a
permanent per-job failure never aborts the batch or the run), every
pagination step executes (one advance per step), and for every step the
terminal-result callbacks (`OnSuccess`/`OnFailure`) exactly balance the
dispatch callbacks — a per-job failure is reported only through its one
`OnFailure` callback. -/
theorem c9_failures_never_abort (d : Downloader) (drv : CollectionPageDriver)
    (env : Nat → Nat → Nat → AttemptOutcome) (h0 : History)
    (hok : ∀ i, (drv.entries i).2 = none) :
    ∃ hF evs, downloadRun d drv env h0 = .ok (hF, evs) ∧
      evs.countP isAdvance = drv.scrollTimes.1 ∧
      ∀ t, evs.countP (isStartOf t) = evs.countP (isResultOf t) := by
  obtain ⟨hF, evs, hrs, hadv, hcnt⟩ := runSteps_ok_counts d drv env
    (List.range drv.scrollTimes.1) h0 (fun i _ => hok i)
  refine ⟨writeOut hF, evs, ?_, ?_, hcnt⟩
  · rw [downloadRun, hrs]
  · rw [hadv, List.length_range]

def c9Downloader : Downloader :=
  { username := "u", identity := "id", dirPath := "out", timeout := 3 * minute,
    headless := false, filetype := MP3_320 }

def c9Driver : CollectionPageDriver :=
  { filterErr := none, albumCount := (1, none), scrollTimes := (1, none),
    entries := fun _ => ([⟨"url1", "Album A"⟩], none) }

/-- Witness for C9: a run whose only job fails structurally still completes. -/
theorem c9_witness :
    ∃ hF evs, downloadRun c9Downloader c9Driver
        (fun _ _ _ => .completes { okAttempt with gotoErr := some "selector not found" })
        emptyHistory = .ok (hF, evs) ∧
      evs.countP isAdvance = c9Driver.scrollTimes.1 ∧
      ∀ t, evs.countP (isStartOf t) = evs.countP (isResultOf t) :=
  c9_failures_never_abort c9Downloader c9Driver
    (fun _ _ _ => .completes { okAttempt with gotoErr := some "selector not found" })
    emptyHistory (fun _ => rfl)

/-! ## C6 — listing/pagination errors -/

def c6Downloader : Downloader :=
  { username := "u", identity := "id", dirPath := "out", timeout := 3 * minute,
    headless := false, filetype := MP3_320 }

/-- A driver on which applying the filter, the album count and the
pagination-step count all report errors, while fetching entries succeeds. -/
def c6Driver : CollectionPageDriver :=
  { filterErr := some "bad session", albumCount := (0, some "bad session"),
    scrollTimes := (1, some "bad session"), entries := fun _ => ([], none) }

/-- Claim C6, counterexample: The claim fails on the code: the errors returned
by `page.filter`, `page.AlbumCount` and `page.ScrollTimes` are assigned to
`err` and never checked (each is overwritten), so a run in which all three
report an error still completes with an `ok` overall result; only the
entries fetch is checked. -/
theorem c6_counterexample :
    c6Driver.filterErr = some "bad session" ∧
    c6Driver.albumCount.2 = some "bad session" ∧
    c6Driver.scrollTimes.2 = some "bad session" ∧
    downloadRun c6Downloader c6Driver (fun _ _ _ => .completes okAttempt)
      emptyHistory = .ok (emptyHistory, [Event.flushEv 0, Event.advance 0]) :=
  ⟨rfl, rfl, rfl, by rfl⟩

theorem range_decomp (i n : Nat) (hlt : i < n) :
    List.range n = List.range i ++ i :: List.range' (i + 1) (n - i - 1) := by
  obtain ⟨k, rfl⟩ : ∃ k, n = (k + 1) + i := ⟨n - i - 1, by omega⟩
  have hk : (k + 1) + i - i - 1 = k := by omega
  rw [hk, List.range_eq_range', ← List.range'_append_1 0 i (k + 1),
    ← List.range_eq_range']
  congr 1
  simp [List.range'_succ]

theorem runSteps_error_at (d : Downloader) (drv : CollectionPageDriver)
    (env : Nat → Nat → Nat → AttemptOutcome) (i : Nat) (e : String)
    (herr : (drv.entries i).2 = some e) :
    ∀ (a b : List Nat) (h : History), (∀ j ∈ a, (drv.entries j).2 = none) →
      runSteps d drv env (a ++ i :: b) h =
        .error ("Could not get your collection. Err: " ++ e ++
          "\nCheck that you have the correct identity cookie value") := by
  intro a
  induction a with
  | nil =>
    intro b h _
    simp only [List.nil_append, runSteps, stepRun_error d drv env i h e herr]
  | cons j a' ih =>
    intro b h hclean
    have hih := ih b (writeOut (drainHist d.filetype (stepRes d drv env j h) h))
      (fun x hx => hclean x (by simp [hx]))
    simp only [List.cons_append, runSteps,
      stepRun_ok d drv env j h (hclean j (by simp)), List.append_eq, hih]

/-- Claim C6, amended: Only an error from the per-step entries fetch
(`page.Entries`) aborts the run, and it does so with a non-nil overall error
whose message carries the invalid-session-credential diagnostic; the errors
of `page.filter`, `page.AlbumCount` and `page.ScrollTimes` are silently
discarded by the source. -/
theorem c6_entries_error_aborts (d : Downloader) (drv : CollectionPageDriver)
    (env : Nat → Nat → Nat → AttemptOutcome) (h0 : History) (i : Nat) (e : String)
    (hlt : i < drv.scrollTimes.1)
    (hbefore : ∀ j, j < i → (drv.entries j).2 = none)
    (herr : (drv.entries i).2 = some e) :
    downloadRun d drv env h0 =
      .error ("Could not get your collection. Err: " ++ e ++
        "\nCheck that you have the correct identity cookie value") := by
  rw [downloadRun, range_decomp i drv.scrollTimes.1 hlt,
    runSteps_error_at d drv env i e herr _ _ h0
      (fun j hj => hbefore j (List.mem_range.mp hj))]

def c6Driver2 : CollectionPageDriver :=
  { filterErr := none, albumCount := (1, none), scrollTimes := (1, none),
    entries := fun _ => ([], some "bad cookie") }

/-- Witness for the amended C6: an entries-fetch error on the first step
aborts the run with the invalid-session diagnostic. -/
theorem c6_witness :
    downloadRun c6Downloader c6Driver2 (fun _ _ _ => .completes okAttempt)
      emptyHistory =
      .error ("Could not get your collection. Err: " ++ "bad cookie" ++
        "\nCheck that you have the correct identity cookie value") :=
  c6_entries_error_aborts c6Downloader c6Driver2 (fun _ _ _ => .completes okAttempt)
    emptyHistory 0 "bad cookie" (by decide) (fun j hj => absurd hj (by omega)) rfl

/-! ## C10 — the configured timeout is never used by job creation -/

theorem stepRun_withTimeout (d : Downloader) (t : Nat) (drv : CollectionPageDriver)
    (env : Nat → Nat → Nat → AttemptOutcome) (i : Nat) (h : History) :
    stepRun (WithTimeout t d) drv env i h = stepRun d drv env i h := rfl

theorem runSteps_withTimeout (d : Downloader) (t : Nat) (drv : CollectionPageDriver)
    (env : Nat → Nat → Nat → AttemptOutcome) :
    ∀ (steps : List Nat) (h : History),
      runSteps (WithTimeout t d) drv env steps h = runSteps d drv env steps h := by
  intro steps
  induction steps with
  | nil => intro h; rfl
  | cons s rest ih =>
    intro h
    rw [runSteps, runSteps, stepRun_withTimeout]
    cases hstep : stepRun d drv env s h with
    | error e => rfl
    | ok p =>
      obtain ⟨h2, evs⟩ := p
      simp only [ih h2]

/-- Claim C10: Every job `Download` enqueues starts with a per-attempt timeout
of exactly 4 minutes: the hardcoded `time.Minute * 4` in the job literal.
The timeout configured on the `Downloader` (via `WithTimeout`, defaulting to
3 minutes in `DefaultDownloader`) is never read by job creation or the
orchestration loop, so the whole run is independent of it. -/
theorem c10_configured_timeout_unused :
    (∀ (d : Downloader) (nd : List CollectionEntry),
      ∀ j ∈ enqueueJobs d nd, j.timeout = 4 * minute) ∧
    (∀ (d : Downloader) (t : Nat) (drv : CollectionPageDriver)
      (env : Nat → Nat → Nat → AttemptOutcome) (h0 : History),
      downloadRun (WithTimeout t d) drv env h0 = downloadRun d drv env h0) ∧
    (∀ (u idn p : String) (dl : Downloader),
      DefaultDownloader u idn p = .ok dl → dl.timeout = 3 * minute) := by
  refine ⟨?_, ?_, ?_⟩
  · intro d nd j hj
    simp only [enqueueJobs, List.mem_map] at hj
    obtain ⟨entry, _, heq⟩ := hj
    rw [← heq]
    rfl
  · intro d t drv env h0
    rw [downloadRun, downloadRun, runSteps_withTimeout]
  · intro u idn p dl hdl
    by_cases hp : p = ""
    · simp [DefaultDownloader, NewDownloader, hp] at hdl
    · simp only [DefaultDownloader, NewDownloader, hp, if_false, ite_false,
        Except.ok.injEq] at hdl
      rw [← hdl]
      rfl

/-- Witness for C10: a concrete enqueued job has the 4-minute timeout and the
default configuration carries the never-used 3-minute one. -/
theorem c10_witness :
    (initialJob ⟨"url1", "Album A"⟩ "out" MP3_320).timeout = 4 * minute ∧
    ({ username := "u", identity := "id", dirPath := "out", timeout := 3 * minute,
       headless := false, filetype := MP3_320 } : Downloader).timeout = 3 * minute :=
  ⟨c10_configured_timeout_unused.1
      { username := "u", identity := "id", dirPath := "out", timeout := 0,
        headless := false, filetype := MP3_320 }
      [⟨"url1", "Album A"⟩] (initialJob ⟨"url1", "Album A"⟩ "out" MP3_320)
      (by simp [enqueueJobs, initialJob]),
   c10_configured_timeout_unused.2.2 "u" "id" "out" _ (by rfl)⟩

/-! ## C4 — dedup idempotence across two runs -/

/-- A fingerprint that survives the newline-delimited file format: it contains
no newline byte and does not end in a carriage-return byte (C3 exhibits a
digest violating this). -/
def LineOK (x : List Nat) : Prop := 10 ∉ x ∧ x.getLast? ≠ some 13

instance (x : List Nat) : Decidable (LineOK x) := by unfold LineOK; infer_instance

/-- The file bytes of a sequence of newline-terminated lines. -/
def linesBytes (ls : List (List Nat)) : List Nat :=
  (ls.map (· ++ [10])).flatten

theorem dropCR_eq (x : List Nat) (hx : x.getLast? ≠ some 13) : dropCR x = x := by
  simp [dropCR, hx]

theorem scanLinesAux_append (x : List Nat) (hx : 10 ∉ x) :
    ∀ (rest cur : List Nat),
      scanLinesAux (x ++ 10 :: rest) cur = dropCR (cur ++ x) :: scanLinesAux rest [] := by
  induction x with
  | nil => intro rest cur; simp [scanLinesAux]
  | cons b x' ih =>
    intro rest cur
    have hb : ¬(b = 10) := fun hbe => hx (hbe ▸ List.mem_cons_self b x')
    have hx' : 10 ∉ x' := fun hm => hx (List.mem_cons_of_mem b hm)
    simp only [List.cons_append, scanLinesAux, hb, if_false, ite_false,
      List.append_eq]
    rw [ih hx' rest (cur ++ [b])]
    simp

theorem scanLines_linesBytes (ls : List (List Nat)) (h : ∀ x ∈ ls, LineOK x) :
    scanLines (linesBytes ls) = ls := by
  induction ls with
  | nil => rfl
  | cons x ls' ih =>
    have hx := h x (by simp)
    have hflat : linesBytes (x :: ls') = x ++ 10 :: linesBytes ls' := by
      simp [linesBytes]
    rw [scanLines, hflat, scanLinesAux_append x hx.1 (linesBytes ls') [],
      List.nil_append, dropCR_eq x hx.2]
    congr 1
    exact ih (fun y hy => h y (by simp [hy]))

theorem mem_readHistory_iff (bytes y : List Nat) :
    y ∈ (readHistory bytes).items ↔ y ∈ scanLines bytes := by
  simp [readHistory, List.mem_dedup]

theorem contains_iff_mem (l : List (List Nat)) (a : List Nat) :
    l.contains a = true ↔ a ∈ l := by
  simp [List.contains]

theorem addItem_file (h : History) (title : String) (ft : FileType) :
    (addItem h title ft).file = h.file := by
  by_cases hc : md5Download title ft ∈ h.items <;> simp [addItem, hc]

theorem mem_addItem_self (h : History) (title : String) (ft : FileType) :
    md5Download title ft ∈ (addItem h title ft).items := by
  by_cases hc : md5Download title ft ∈ h.items <;> simp [addItem, hc]

theorem mem_addItem_of_mem (h : History) (title : String) (ft : FileType)
    (x : List Nat) (hx : x ∈ h.items) : x ∈ (addItem h title ft).items := by
  by_cases hc : md5Download title ft ∈ h.items <;> simp [addItem, hc, hx]

theorem addItem_items_cases (h : History) (title : String) (ft : FileType)
    (x : List Nat) (hx : x ∈ (addItem h title ft).items) :
    x ∈ h.items ∨ x = md5Download title ft := by
  by_cases hc : md5Download title ft ∈ h.items
  · exact Or.inl (by simpa [addItem, hc] using hx)
  · simpa [addItem, hc] using hx

theorem writeOut_items (h : History) : (writeOut h).items = h.items := rfl

/-- Recording one success per entry, in order — the history part of a fully
successful drain loop. -/
def recordAll (ft : FileType) (nd : List CollectionEntry) (h : History) : History :=
  nd.foldl (fun hh e => addItem hh e.title ft) h

theorem recordAll_file (ft : FileType) :
    ∀ (nd : List CollectionEntry) (h : History), (recordAll ft nd h).file = h.file := by
  intro nd
  induction nd with
  | nil => intro h; rfl
  | cons e nd' ih =>
    intro h
    rw [recordAll, List.foldl_cons, ← recordAll, ih, addItem_file]

theorem mem_recordAll_of_mem (ft : FileType) :
    ∀ (nd : List CollectionEntry) (h : History) (x : List Nat),
      x ∈ h.items → x ∈ (recordAll ft nd h).items := by
  intro nd
  induction nd with
  | nil => intro h x hx; exact hx
  | cons e nd' ih =>
    intro h x hx
    rw [recordAll, List.foldl_cons, ← recordAll]
    exact ih _ x (mem_addItem_of_mem h e.title ft x hx)

theorem recordAll_covers (ft : FileType) :
    ∀ (nd : List CollectionEntry) (h : History) (e : CollectionEntry), e ∈ nd →
      md5Download e.title ft ∈ (recordAll ft nd h).items := by
  intro nd
  induction nd with
  | nil => intro h e he; exact absurd he (by simp)
  | cons e0 nd' ih =>
    intro h e he
    rw [recordAll, List.foldl_cons, ← recordAll]
    rcases List.mem_cons.mp he with rfl | hmem
    · exact mem_recordAll_of_mem ft nd' _ _ (mem_addItem_self h e.title ft)
    · exact ih _ e hmem

theorem recordAll_items_cases (ft : FileType) :
    ∀ (nd : List CollectionEntry) (h : History) (x : List Nat),
      x ∈ (recordAll ft nd h).items →
      x ∈ h.items ∨ ∃ e ∈ nd, x = md5Download e.title ft := by
  intro nd
  induction nd with
  | nil => intro h x hx; exact Or.inl hx
  | cons e0 nd' ih =>
    intro h x hx
    rw [recordAll, List.foldl_cons, ← recordAll] at hx
    rcases ih _ x hx with hin | ⟨e, he, rfl⟩
    · rcases addItem_items_cases h e0.title ft x hin with hin2 | rfl
      · exact Or.inl hin2
      · exact Or.inr ⟨e0, by simp, rfl⟩
    · exact Or.inr ⟨e, by simp [he], rfl⟩

/-- The invariant run 1 maintains on its store: every in-memory fingerprint is
newline-clean, and the backing file consists of newline-terminated lines all
of which are (still) in the in-memory set. -/
def Inv (h : History) : Prop :=
  (∀ x ∈ h.items, LineOK x) ∧
  ∃ ls, h.file = linesBytes ls ∧ ∀ x ∈ ls, x ∈ h.items

theorem Inv_empty : Inv emptyHistory :=
  ⟨fun x hx => absurd hx (by simp [emptyHistory]), [], rfl,
    fun x hx => absurd hx (by simp)⟩

theorem Inv_writeOut (h : History) (hInv : Inv h) : Inv (writeOut h) := by
  obtain ⟨hOK, ls, hfile, hls⟩ := hInv
  refine ⟨fun x hx => hOK x (by simpa [writeOut_items] using hx), ls ++ h.items, ?_, ?_⟩
  · simp [writeOut, hfile, linesBytes]
  · intro x hx
    rw [writeOut_items]
    rcases List.mem_append.mp hx with h1 | h1
    · exact hls x h1
    · exact h1

/-- After a flush, reloading the file recovers (at least) every in-memory
fingerprint, provided the store satisfies the newline-cleanliness
invariant. -/
theorem reload_supset (h : History) (hInv : Inv h) :
    ∀ x ∈ h.items, x ∈ (readHistory (writeOut h).file).items := by
  obtain ⟨hOK, ls, hfile, hls⟩ := hInv
  intro x hx
  rw [mem_readHistory_iff]
  have hwf : (writeOut h).file = linesBytes (ls ++ h.items) := by
    simp [writeOut, hfile, linesBytes]
  rw [hwf, scanLines_linesBytes (ls ++ h.items) (by
    intro y hy
    rcases List.mem_append.mp hy with h1 | h1
    · exact hOK y (hls y h1)
    · exact hOK y h1)]
  simp [hx]

theorem runPool_allOk (env : Nat → Nat → AttemptOutcome)
    (henv : ∀ id k, env id k = .completes okAttempt) :
    ∀ (q : List (Nat × Nat × downloadJob)) (fuel : Nat), q.length ≤ fuel →
      runPool env fuel q = some (q.map (fun e => (e.1, succeeded e.2.2))) := by
  intro q
  induction q with
  | nil => intro fuel _; cases fuel <;> rfl
  | cons e rest ih =>
    intro fuel hf
    obtain ⟨f2, rfl⟩ : ∃ f2, fuel = f2 + 1 := ⟨fuel - 1, by simp at hf; omega⟩
    obtain ⟨id, k, j⟩ := e
    have hws : workerStep j (env id k) = .inr (succeeded j) := by
      rw [henv]
      simp [workerStep, processJob, okAttempt]
    simp only [runPool, hws]
    rw [ih f2 (by simp at hf; omega)]
    rfl

theorem stepRes_allOk (d : Downloader) (drv : CollectionPageDriver)
    (env : Nat → Nat → Nat → AttemptOutcome) (i : Nat) (h : History)
    (henv : ∀ id k, env i id k = .completes okAttempt) :
    stepRes d drv env i h =
      (stepQ d drv i h).map (fun e => (e.1, succeeded e.2.2)) := by
  rw [stepRes, runPoolD, runPool_allOk (env i) henv _ (6 * (stepQ d drv i h).length)
    (by omega)]
  rfl

/-- With an all-success environment, the drain loop of step `i` records
exactly the batch's entries, in order. -/
theorem stepHist_allOk (d : Downloader) (drv : CollectionPageDriver)
    (env : Nat → Nat → Nat → AttemptOutcome) (i : Nat) (h : History)
    (henv : ∀ id k, env i id k = .completes okAttempt) :
    drainHist d.filetype (stepRes d drv env i h) h =
      recordAll d.filetype (stepND d drv i h) h := by
  rw [drainHist, stepRes_allOk d drv env i h henv, List.foldl_map]
  have h1 : ∀ (hh : History) (p : Nat × downloadJob),
      (if (succeeded p.2).Success then addItem hh (succeeded p.2).Entry.title d.filetype
        else hh) = addItem hh p.2.Entry.title d.filetype := by
    intro hh p
    simp [succeeded]
  simp only [h1]
  rw [stepQ, List.foldl_map, ← List.foldl_map Prod.snd
    (fun hh (j : downloadJob) => addItem hh j.Entry.title d.filetype),
    List.enum_map_snd, enqueueJobs, List.foldl_map]
  rfl

/-- Run 1 with an all-success environment: the run completes, the store
invariant is maintained, the in-memory set only grows, and at the end it
contains the fingerprint of every entry surfaced in any processed step. -/
theorem runSteps_allOk_props (d : Downloader) (drv : CollectionPageDriver)
    (env : Nat → Nat → Nat → AttemptOutcome)
    (henv : ∀ i id k, env i id k = .completes okAttempt)
    (hfps : ∀ i e, e ∈ (drv.entries i).1 → LineOK (md5Download e.title d.filetype)) :
    ∀ (steps : List Nat) (h : History),
      (∀ i ∈ steps, (drv.entries i).2 = none) → Inv h →
      ∃ hF evs, runSteps d drv env steps h = .ok (hF, evs) ∧ Inv hF ∧
        (∀ x ∈ h.items, x ∈ hF.items) ∧
        (∀ i ∈ steps, ∀ e ∈ (drv.entries i).1,
          md5Download e.title d.filetype ∈ hF.items) := by
  intro steps
  induction steps with
  | nil =>
    intro h _ hInv
    exact ⟨h, [], rfl, hInv, fun x hx => hx, fun i hi => absurd hi (by simp)⟩
  | cons s rest ih =>
    intro h hok hInv
    have hndsub : ∀ e ∈ stepND d drv s h, e ∈ (drv.entries s).1 := by
      intro e he
      rw [stepND, notDownloadedOf] at he
      exact (List.mem_filter.mp he).1
    have hInv2 : Inv (writeOut (recordAll d.filetype (stepND d drv s h) h)) := by
      refine Inv_writeOut _ ⟨?_, ?_⟩
      · intro x hx
        rcases recordAll_items_cases d.filetype _ h x hx with h1 | ⟨e, he, rfl⟩
        · exact hInv.1 x h1
        · exact hfps s e (hndsub e he)
      · obtain ⟨_, ls, hfile, hls⟩ := hInv
        exact ⟨ls, by rw [recordAll_file, hfile],
          fun x hx => mem_recordAll_of_mem _ _ _ x (hls x hx)⟩
    obtain ⟨hF, evs2, hrest, hInvF, hmono, hcov⟩ :=
      ih (writeOut (recordAll d.filetype (stepND d drv s h) h))
        (fun i hi => hok i (by simp [hi])) hInv2
    refine ⟨hF, stepEvs d drv env s h ++ evs2, ?_, hInvF, ?_, ?_⟩
    · simp only [runSteps, stepRun_ok d drv env s h (hok s (by simp)),
        stepHist_allOk d drv env s h (fun id k => henv s id k), hrest]
    · intro x hx
      exact hmono x (by
        rw [writeOut_items]
        exact mem_recordAll_of_mem _ _ _ x hx)
    · intro i hi e he
      rcases List.mem_cons.mp hi with rfl | hi2
      · -- entries of this step: either skipped because already present, or recorded
        by_cases hc : containsDownload h e.title d.filetype = true
        · refine hmono _ (by
            rw [writeOut_items]
            exact mem_recordAll_of_mem _ _ _ _
              ((contains_iff_mem _ _).mp (by simpa [containsDownload] using hc)))
        · have hnd : e ∈ stepND d drv i h := by
            simp only [stepND, notDownloadedOf, List.mem_filter]
            exact ⟨he, by simpa [containsDownload] using hc⟩
          exact hmono _ (by
            rw [writeOut_items]
            exact recordAll_covers _ _ _ _ hnd)
      · exact hcov i hi2 e he

/-- Run 2, when every surfaced entry's fingerprint is already in the store:
every step's batch is empty, the store's in-memory set never changes, and no
`OnStart`/`OnSuccess`/`OnFailure` callback fires. -/
theorem runSteps_skip_all (d : Downloader) (drv : CollectionPageDriver)
    (env : Nat → Nat → Nat → AttemptOutcome) :
    ∀ (steps : List Nat) (h : History),
      (∀ i ∈ steps, (drv.entries i).2 = none) →
      (∀ i ∈ steps, ∀ e ∈ (drv.entries i).1,
        containsDownload h e.title d.filetype = true) →
      ∃ hF evs, runSteps d drv env steps h = .ok (hF, evs) ∧ hF.items = h.items ∧
        evs.countP isStart = 0 ∧ evs.countP isResult = 0 := by
  intro steps
  induction steps with
  | nil => intro h _ _; exact ⟨h, [], rfl, rfl, rfl, rfl⟩
  | cons s rest ih =>
    intro h hok hcov
    have hnd : stepND d drv s h = [] := by
      rw [stepND, notDownloadedOf, List.filter_eq_nil_iff]
      intro e he
      simp [hcov s (by simp) e he]
    have hres : stepRes d drv env s h = [] := by
      rw [stepRes, stepQ, hnd]
      rfl
    have hdh : drainHist d.filetype (stepRes d drv env s h) h = h := by
      rw [hres]
      rfl
    obtain ⟨hF, evs2, hrest, hitems, hst, hrs⟩ :=
      ih (writeOut h) (fun i hi => hok i (by simp [hi]))
        (fun i hi e he => hcov i (by simp [hi]) e he)
    refine ⟨hF, stepEvs d drv env s h ++ evs2, ?_, ?_, ?_, ?_⟩
    · simp only [runSteps, stepRun_ok d drv env s h (hok s (by simp)), hdh, hrest]
    · rw [hitems, writeOut_items]
    · rw [List.countP_append, hst]
      simp [stepEvs, hnd, hres, drainEvs, isStart, List.countP_cons]
    · rw [List.countP_append, hrs]
      simp [stepEvs, hnd, hres, drainEvs, isResult, List.countP_cons]

def c4Downloader : Downloader :=
  { username := "u", identity := "id", dirPath := "out", timeout := 3 * minute,
    headless := false, filetype := MP3_320 }

def c4Driver : CollectionPageDriver :=
  { filterErr := none, albumCount := (1, none), scrollTimes := (1, none),
    entries := fun _ => ([⟨"url1", "Album A"⟩], none) }

def c4FailEnv : Nat → Nat → Nat → AttemptOutcome :=
  fun _ _ _ => .completes { okAttempt with gotoErr := some "selector not found" }

/-- Claim C4, counterexample: The claim is false as stated: a first run in
which the only job fails permanently records nothing in the History Store,
so a second orchestrator run over the unchanged collection, started from the
store the first run produced, enqueues that entry again — one `OnStart`
callback, not zero jobs. -/
theorem c4_counterexample :
    downloadRun c4Downloader c4Driver c4FailEnv emptyHistory =
      .ok (emptyHistory, [Event.onStart 0 "Album A", Event.onFailure 0 "Album A",
        Event.flushEv 0, Event.advance 0]) ∧
    downloadRun c4Downloader c4Driver c4FailEnv (readHistory emptyHistory.file) =
      .ok (emptyHistory, [Event.onStart 0 "Album A", Event.onFailure 0 "Album A",
        Event.flushEv 0, Event.advance 0]) ∧
    ([Event.onStart 0 "Album A", Event.onFailure 0 "Album A", Event.flushEv 0,
      Event.advance 0].countP isStart) = 1 :=
  ⟨by rfl, by rfl, by rfl⟩

/-- Claim C4, amended: An entry whose (title, selected format) fingerprint is
already in the store is dropped before job creation; consequently, when
every entry listing succeeds, every job of the first run succeeds, and every
surfaced fingerprint is newline-clean (no byte `0x0A`, no trailing `0x0D` —
cf. C3), a second orchestrator run over the unchanged collection, starting
from the History Store reloaded from the file the first run wrote, enqueues
zero jobs and downloads zero files: its trace has no `OnStart` and no
`OnSuccess`/`OnFailure` callback. -/
theorem c4_dedup_idempotence (d : Downloader) (drv : CollectionPageDriver)
    (env1 env2 : Nat → Nat → Nat → AttemptOutcome)
    (hok : ∀ i, (drv.entries i).2 = none)
    (henv1 : ∀ i id k, env1 i id k = .completes okAttempt)
    (hfps : ∀ i e, e ∈ (drv.entries i).1 → LineOK (md5Download e.title d.filetype)) :
    (∀ (h : History) (es : List CollectionEntry) (e : CollectionEntry),
      containsDownload h e.title d.filetype = true →
      e ∉ notDownloadedOf h d.filetype es) ∧
    ∃ h1 evs1 h2 evs2,
      downloadRun d drv env1 emptyHistory = .ok (h1, evs1) ∧
      downloadRun d drv env2 (readHistory h1.file) = .ok (h2, evs2) ∧
      evs2.countP isStart = 0 ∧ evs2.countP isResult = 0 := by
  constructor
  · intro h es e hc hmem
    rw [notDownloadedOf] at hmem
    have h2 := (List.mem_filter.mp hmem).2
    simp [hc] at h2
  · obtain ⟨hF, evs1, hrs, hInvF, _, hcov⟩ := runSteps_allOk_props d drv env1 henv1 hfps
      (List.range drv.scrollTimes.1) emptyHistory (fun i _ => hok i) Inv_empty
    have hcov2 : ∀ i ∈ List.range drv.scrollTimes.1, ∀ e ∈ (drv.entries i).1,
        containsDownload (readHistory (writeOut hF).file) e.title d.filetype = true := by
      intro i hi e he
      rw [containsDownload, contains_iff_mem]
      exact reload_supset hF hInvF _ (hcov i hi e he)
    obtain ⟨h2, evs2, hrs2, _, hst, hres⟩ := runSteps_skip_all d drv env2
      (List.range drv.scrollTimes.1) (readHistory (writeOut hF).file)
      (fun i _ => hok i) hcov2
    exact ⟨writeOut hF, evs1, writeOut h2, evs2, by rw [downloadRun, hrs],
      by rw [downloadRun, hrs2], hst, hres⟩

def c4Driver2 : CollectionPageDriver :=
  { filterErr := none, albumCount := (1, none), scrollTimes := (1, none),
    entries := fun _ => ([⟨"url1", "X"⟩], none) }

def c4OkEnv : Nat → Nat → Nat → AttemptOutcome :=
  fun _ _ _ => .completes okAttempt

/-- Witness for the amended C4: one entry, an all-success first run, clean
fingerprint — the second run fires no callbacks. -/
theorem c4_witness :
    ∃ h1 evs1 h2 evs2,
      downloadRun c4Downloader c4Driver2 c4OkEnv emptyHistory = .ok (h1, evs1) ∧
      downloadRun c4Downloader c4Driver2 c4OkEnv (readHistory h1.file) = .ok (h2, evs2) ∧
      evs2.countP isStart = 0 ∧ evs2.countP isResult = 0 :=
  (c4_dedup_idempotence c4Downloader c4Driver2 c4OkEnv c4OkEnv (fun _ => rfl)
    (fun _ _ _ => rfl)
    (by
      intro i e he
      simp only [c4Driver2, List.mem_singleton] at he
      subst he
      decide)).2

end Bcdl
